import Mathlib

/-! Verification development for the pegasus client core
(src/src/client_lib/pegasus_client_impl.cpp): composite-key codec, error
translation, pre-flight request validation, the async/sync bridge, and the
scan-splitting algorithm.  Byte strings are modelled as `List Nat`, C `int`
values as `Int`, and the transport as an explicit result parameter. -/

namespace Pegasus

/-- Modelled from the spec: the client error codes live in pegasus/error_def.h,
which is not under src; the spec fixes only the symbolic taxonomy ("values are
a private contiguous space the implementer may choose"), so distinct concrete
values are chosen here, all outside the reserved storage sub-range that starts
at -1001. -/
def PERR_OK : Int := 0

def PERR_UNKNOWN : Int := -1

def PERR_TIMEOUT : Int := -2

def PERR_OBJECT_NOT_FOUND : Int := -3

def PERR_NETWORK_FAILURE : Int := -4

def PERR_HANDLER_NOT_FOUND : Int := -5

def PERR_APP_NOT_EXIST : Int := -6

def PERR_APP_EXIST : Int := -7

def PERR_SERVER_CHANGED : Int := -8

def PERR_SERVER_INTERNAL_ERROR : Int := -9

def PERR_INVALID_HASH_KEY : Int := -10

def PERR_INVALID_VALUE : Int := -11

def PERR_INVALID_SPLIT_COUNT : Int := -12

/-- Modelled from the spec: the dsn transport error codes (dsn auto_codes, not
under src).  `ERR_OK` is 0; the others are distinct small positive values,
disjoint from the client codes and from the reserved storage sub-range. -/
def ERR_OK : Int := 0

def ERR_TIMEOUT : Int := 1

def ERR_FILE_OPERATION_FAILED : Int := 2

def ERR_INVALID_STATE : Int := 3

def ERR_OBJECT_NOT_FOUND : Int := 4

def ERR_NETWORK_FAILURE : Int := 5

def ERR_HANDLER_NOT_FOUND : Int := 6

def ERR_APP_NOT_EXIST : Int := 7

def ERR_APP_EXIST : Int := 8

/-- The C constant UINT16_MAX, the bound every hash-key length check uses
(`hash_key.size() >= UINT16_MAX`). -/
def UINT16_MAX : Nat := 65535

/-- From src: `#define ROCSKDB_ERROR_START -1000`. -/
def ROCSKDB_ERROR_START : Int := -1000

/-- Modelled from the spec: `pegasus_generate_key` (key schema header, not
under src) encodes (hash-key, sort-key) as a 2-byte big-endian hash-key length
followed by the hash-key bytes and then the sort-key bytes. -/
def pegasus_generate_key (hash_key sort_key : List Nat) : List Nat :=
  hash_key.length / 256 :: hash_key.length % 256 :: (hash_key ++ sort_key)

/-- Modelled from the spec: the hash-key segment of an encoded key, recovered
from the 2-byte big-endian length bytes at the front. -/
def extract_hash_key (key : List Nat) : List Nat :=
  match key with
  | b0 :: b1 :: rest => rest.take (b0 * 256 + b1)
  | _ => []

/-- Modelled from the spec: a deterministic 64-bit byte hash, standing in for
the crc the key schema uses (not under src). -/
def hash_bytes (bs : List Nat) : Nat :=
  bs.foldl (fun acc b => (acc * 131 + b) % 18446744073709551616) 5381

/-- Modelled from the spec: `pegasus_key_hash` (key schema header, not under
src) is a pure function of the encoded key's hash-key segment only. -/
def pegasus_key_hash (key : List Nat) : Nat :=
  hash_bytes (extract_hash_key key)

/-- Increment a big-endian byte string given in reversed order, dropping bytes
that overflow; helper for `pegasus_generate_next_blob`. -/
def incr_rev : List Nat → List Nat
  | [] => []
  | b :: rest => if 255 ≤ b then incr_rev rest else (b + 1) :: rest

/-- Modelled from the spec: `pegasus_generate_next_blob` (key schema header,
not under src) produces the smallest key strictly greater than every encoded
key sharing the given hash-key, by incrementing the encoded hash-key
segment. -/
def pegasus_generate_next_blob (hash_key : List Nat) : List Nat :=
  (incr_rev (hash_key.length / 256 :: hash_key.length % 256 :: hash_key).reverse).reverse

/-- From src `pegasus_client_impl::init_error`: the server-to-client error
table; nine transport entries, then the reserved rocksdb range
-1001 .. -1012 mapped to itself (`for i = 1001; i < 1013`). -/
def server_error_to_client : List (Int × Int) :=
  [(ERR_OK, PERR_OK), (ERR_TIMEOUT, PERR_TIMEOUT),
   (ERR_FILE_OPERATION_FAILED, PERR_SERVER_INTERNAL_ERROR),
   (ERR_INVALID_STATE, PERR_SERVER_CHANGED),
   (ERR_OBJECT_NOT_FOUND, PERR_OBJECT_NOT_FOUND),
   (ERR_NETWORK_FAILURE, PERR_NETWORK_FAILURE),
   (ERR_HANDLER_NOT_FOUND, PERR_HANDLER_NOT_FOUND),
   (ERR_APP_NOT_EXIST, PERR_APP_NOT_EXIST),
   (ERR_APP_EXIST, PERR_APP_EXIST)] ++
  (List.range 12).map (fun i => (-(1001 + (i : Int)), -(1001 + (i : Int))))

/-- From src `pegasus_client_impl::get_client_error`: table lookup, defaulting
to `PERR_UNKNOWN` for codes with no entry. -/
def get_client_error (server_error : Int) : Int :=
  match server_error_to_client.lookup server_error with
  | some c => c
  | none => PERR_UNKNOWN

/-- From src `pegasus_client_impl::get_rocksdb_server_error`:
`(e == 0) ? 0 : ROCSKDB_ERROR_START - e`. -/
def get_rocksdb_server_error (rocskdb_error : Int) : Int :=
  if rocskdb_error = 0 then 0 else ROCSKDB_ERROR_START - rocskdb_error

/-- From src: the translation step every completion callback performs:
`get_client_error(err == ERR_OK ? get_rocksdb_server_error(response.error) :
err.get())`. -/
def to_client_error (transport_error storage_error : Int) : Int :=
  get_client_error
    (if transport_error = ERR_OK then get_rocksdb_server_error storage_error
     else transport_error)

/-- The response envelope `internal_info` (declared in the client header, not
under src; fields are exactly those assigned in src). -/
structure internal_info where
  app_id : Int
  partition_index : Int
  decree : Int
  server : Nat
deriving DecidableEq

/-- Modelled from the spec: a default-constructed envelope (sequence number -1
when not applicable; server 0 stands for the empty server string). -/
def default_info : internal_info := ⟨-1, -1, -1, 0⟩

/-- Pre-flight result of an asynchronous operation: either a validation error
delivered synchronously to the callback with no RPC, or an issued RPC with its
request and partition hash. -/
inductive Outcome (ρ : Type) where
  | fail (code : Int)
  | rpc (req : ρ) (partition_hash : Nat)
deriving DecidableEq

def Outcome.isRpc {ρ : Type} : Outcome ρ → Bool
  | .fail _ => false
  | .rpc _ _ => true

structure update_request where
  key : List Nat
  value : List Nat
  expire_ts_seconds : Int
deriving DecidableEq

structure multi_put_request where
  hash_key : List Nat
  kvs : List (List Nat × List Nat)
  expire_ts_seconds : Int
deriving DecidableEq

structure multi_get_request where
  hash_key : List Nat
  sort_keys : List (List Nat)
  max_kv_count : Int
  max_kv_size : Int
  no_value : Bool
deriving DecidableEq

structure multi_remove_request where
  hash_key : List Nat
  sort_keys : List (List Nat)
deriving DecidableEq

structure update_response where
  error : Int
  app_id : Int
  partition_index : Int
  decree : Int
  server : Nat
deriving DecidableEq

structure read_response where
  error : Int
  value : List Nat
  app_id : Int
  partition_index : Int
  server : Nat
deriving DecidableEq

structure multi_get_response where
  error : Int
  kvs : List (List Nat × List Nat)
  app_id : Int
  partition_index : Int
  server : Nat
deriving DecidableEq

structure multi_remove_response where
  error : Int
  count : Int
  app_id : Int
  partition_index : Int
  decree : Int
  server : Nat
deriving DecidableEq

structure ttl_response where
  error : Int
  ttl_seconds : Int
  app_id : Int
  partition_index : Int
  server : Nat
deriving DecidableEq

structure sortkey_count_response where
  error : Int
  count : Int
  app_id : Int
  partition_index : Int
  server : Nat
deriving DecidableEq

structure query_cfg_response where
  err : Int
  partition_count : Nat
deriving DecidableEq

/-- Scan options (declared in the client header, not under src; only the
fields src reads).  Defaults modelled from the spec: the stop bound defaults
to exclusive. -/
structure scan_options where
  timeout_ms : Int
  batch_size : Int
  snapshot : Bool
  start_inclusive : Bool
  stop_inclusive : Bool
deriving DecidableEq

def default_scan_options : scan_options :=
  { timeout_ms := 5000, batch_size := 100, snapshot := false,
    start_inclusive := true, stop_inclusive := false }

/-- A scanner as constructed by src: its partition-hash work list, options and
key range.  The unordered-scan constructor leaves the key range empty. -/
structure pegasus_scanner_impl where
  hash_list : List Nat
  options : scan_options
  start : List Nat
  stop : List Nat
deriving DecidableEq

/-- From src `pegasus_client_impl::async_set`: pre-flight validation, request
construction and partition hashing.  `now` stands for `utils::epoch_now()`. -/
def async_set (hash_key sort_key value : List Nat) (ttl_seconds now : Int) :
    Outcome update_request :=
  if UINT16_MAX ≤ hash_key.length then .fail PERR_INVALID_HASH_KEY
  else
    let key := pegasus_generate_key hash_key sort_key
    let expire := if ttl_seconds = 0 then 0 else ttl_seconds + now
    .rpc ⟨key, value, expire⟩ (pegasus_key_hash key)

/-- From src `pegasus_client_impl::async_multi_set`. -/
def async_multi_set (hash_key : List Nat) (kvs : List (List Nat × List Nat))
    (ttl_seconds now : Int) : Outcome multi_put_request :=
  if hash_key.length = 0 then .fail PERR_INVALID_HASH_KEY
  else if UINT16_MAX ≤ hash_key.length then .fail PERR_INVALID_HASH_KEY
  else if kvs = [] then .fail PERR_INVALID_VALUE
  else
    let expire := if ttl_seconds = 0 then 0 else ttl_seconds + now
    .rpc ⟨hash_key, kvs, expire⟩
      (pegasus_key_hash (pegasus_generate_key hash_key []))

/-- From src `pegasus_client_impl::async_get`. -/
def async_get (hash_key sort_key : List Nat) : Outcome (List Nat) :=
  if UINT16_MAX ≤ hash_key.length then .fail PERR_INVALID_HASH_KEY
  else
    let req := pegasus_generate_key hash_key sort_key
    .rpc req (pegasus_key_hash req)

/-- From src `pegasus_client_impl::async_multi_get`. -/
def async_multi_get (hash_key : List Nat) (sort_keys : List (List Nat))
    (max_fetch_count max_fetch_size : Int) : Outcome multi_get_request :=
  if hash_key.length = 0 then .fail PERR_INVALID_HASH_KEY
  else if UINT16_MAX ≤ hash_key.length then .fail PERR_INVALID_HASH_KEY
  else
    .rpc ⟨hash_key, sort_keys, max_fetch_count, max_fetch_size, false⟩
      (pegasus_key_hash (pegasus_generate_key hash_key []))

/-- From src `pegasus_client_impl::async_multi_get_sortkeys` (the request's
sort-key list is left empty and `no_value` is set). -/
def async_multi_get_sortkeys (hash_key : List Nat)
    (max_fetch_count max_fetch_size : Int) : Outcome multi_get_request :=
  if hash_key.length = 0 then .fail PERR_INVALID_HASH_KEY
  else if UINT16_MAX ≤ hash_key.length then .fail PERR_INVALID_HASH_KEY
  else
    .rpc ⟨hash_key, [], max_fetch_count, max_fetch_size, true⟩
      (pegasus_key_hash (pegasus_generate_key hash_key []))

/-- From src `pegasus_client_impl::async_del`. -/
def async_del (hash_key sort_key : List Nat) : Outcome (List Nat) :=
  if UINT16_MAX ≤ hash_key.length then .fail PERR_INVALID_HASH_KEY
  else
    let req := pegasus_generate_key hash_key sort_key
    .rpc req (pegasus_key_hash req)

/-- From src `pegasus_client_impl::async_multi_del`. -/
def async_multi_del (hash_key : List Nat) (sort_keys : List (List Nat)) :
    Outcome multi_remove_request :=
  if hash_key.length = 0 then .fail PERR_INVALID_HASH_KEY
  else if UINT16_MAX ≤ hash_key.length then .fail PERR_INVALID_HASH_KEY
  else if sort_keys = [] then .fail PERR_INVALID_VALUE
  else
    .rpc ⟨hash_key, sort_keys⟩
      (pegasus_key_hash (pegasus_generate_key hash_key []))

/-- From src `pegasus_client_impl::ttl`, pre-flight part: only the length
bound is checked (there is no emptiness check), then the composite key is
built and hashed for `ttl_sync`. -/
def ttl_request (hash_key sort_key : List Nat) : Outcome (List Nat) :=
  if UINT16_MAX ≤ hash_key.length then .fail PERR_INVALID_HASH_KEY
  else
    let req := pegasus_generate_key hash_key sort_key
    .rpc req (pegasus_key_hash req)

/-- From src `pegasus_client_impl::sortkey_count`, pre-flight part: emptiness
and length checks, then the key for the empty sort-key is hashed. -/
def sortkey_count_request (hash_key : List Nat) : Outcome (List Nat) :=
  if hash_key.length = 0 then .fail PERR_INVALID_HASH_KEY
  else if UINT16_MAX ≤ hash_key.length then .fail PERR_INVALID_HASH_KEY
  else
    .rpc hash_key (pegasus_key_hash (pegasus_generate_key hash_key []))

/-- From src: the completion continuation shared by set, multi_set and del
(decode `update_response`, fill the envelope when the transport succeeded,
translate the error). -/
def update_callback (tr : Int × update_response) : Int × internal_info :=
  let info :=
    if tr.1 = ERR_OK then
      ({ app_id := tr.2.app_id, partition_index := tr.2.partition_index,
         decree := tr.2.decree, server := tr.2.server } : internal_info)
    else default_info
  (to_client_error tr.1 tr.2.error, info)

/-- From src: async_get's completion continuation; the value is filled only
when the transport succeeded and the storage status is 0, and the envelope's
decree is never assigned. -/
def read_callback (tr : Int × read_response) : Int × List Nat × internal_info :=
  let value := if tr.1 = ERR_OK ∧ tr.2.error = 0 then tr.2.value else []
  let info :=
    if tr.1 = ERR_OK then
      { default_info with
        app_id := tr.2.app_id
        partition_index := tr.2.partition_index
        server := tr.2.server }
    else default_info
  (to_client_error tr.1 tr.2.error, value, info)

/-- From src: async_multi_get's completion continuation. -/
def multi_get_callback (tr : Int × multi_get_response) :
    Int × List (List Nat × List Nat) × internal_info :=
  let values := if tr.1 = ERR_OK then tr.2.kvs else []
  let info :=
    if tr.1 = ERR_OK then
      { default_info with
        app_id := tr.2.app_id
        partition_index := tr.2.partition_index
        server := tr.2.server }
    else default_info
  (to_client_error tr.1 tr.2.error, values, info)

/-- From src: async_multi_get_sortkeys' completion continuation (keeps only
the keys of the returned kv list). -/
def multi_get_sortkeys_callback (tr : Int × multi_get_response) :
    Int × List (List Nat) × internal_info :=
  let sort_keys := if tr.1 = ERR_OK then tr.2.kvs.map Prod.fst else []
  let info :=
    if tr.1 = ERR_OK then
      { default_info with
        app_id := tr.2.app_id
        partition_index := tr.2.partition_index
        server := tr.2.server }
    else default_info
  (to_client_error tr.1 tr.2.error, sort_keys, info)

/-- From src: async_multi_del's completion continuation. -/
def multi_remove_callback (tr : Int × multi_remove_response) :
    Int × Int × internal_info :=
  let deleted := if tr.1 = ERR_OK then tr.2.count else 0
  let info :=
    if tr.1 = ERR_OK then
      ({ app_id := tr.2.app_id, partition_index := tr.2.partition_index,
         decree := tr.2.decree, server := tr.2.server } : internal_info)
    else default_info
  (to_client_error tr.1 tr.2.error, deleted, info)

/-- The C `memcmp(start, stop, min(start.len, stop.len))` over byte lists,
returning -1, 0 or 1. -/
def memcmpList : List Nat → List Nat → Int
  | [], _ => 0
  | _ :: _, [] => 0
  | a :: as, b :: bs =>
    if a < b then -1 else if b < a then 1 else memcmpList as bs

/-- Byte-wise (lexicographic) strict order on byte strings, the spec's notion
of key comparison; used to restate the scanner range check. -/
def bytesLt : List Nat → List Nat → Bool
  | [], [] => false
  | [], _ :: _ => true
  | _ :: _, [] => false
  | a :: as, b :: bs =>
    if a < b then true else if a = b then bytesLt as bs else false

/-- From src `pegasus_client_impl::get_scanner`: the eligibility condition on
the encoded range, exactly as written around the `v.push_back` call:
`cmp < 0 || (cmp == 0 && start.length() < stop.length()) ||
(cmp == 0 && start.length() == stop.length() && start_inclusive &&
stop_inclusive)`. -/
def scan_range_eligible (start stop : List Nat) (o : scan_options) : Prop :=
  memcmpList start stop < 0 ∨
    (memcmpList start stop = 0 ∧ start.length < stop.length) ∨
    (memcmpList start stop = 0 ∧ start.length = stop.length ∧
      o.start_inclusive = true ∧ o.stop_inclusive = true)

instance (a b : List Nat) (o : scan_options) :
    Decidable (scan_range_eligible a b o) := by
  unfold scan_range_eligible; infer_instance

/-- From src `pegasus_client_impl::get_scanner`: validation, range
construction (an empty stop sort-key defaults the stop bound to the hash-key
successor with inclusivity forced off), eligibility check, scanner
construction. -/
def get_scanner (hash_key start_sort_key stop_sort_key : List Nat)
    (options : scan_options) : Except Int pegasus_scanner_impl :=
  if UINT16_MAX ≤ hash_key.length then .error PERR_INVALID_HASH_KEY
  else if hash_key = [] then .error PERR_INVALID_HASH_KEY
  else
    let start := pegasus_generate_key hash_key start_sort_key
    let stop_and_o :=
      if stop_sort_key = [] then
        (pegasus_generate_next_blob hash_key,
         { options with stop_inclusive := false })
      else (pegasus_generate_key hash_key stop_sort_key, options)
    let stop := stop_and_o.1
    let o := stop_and_o.2
    let v :=
      if scan_range_eligible start stop o then [pegasus_key_hash start] else []
    .ok { hash_list := v, options := o, start := start, stop := stop }

/-- From src `pegasus_client_impl::async_get_scanner`: delivers the result of
the synchronous `get_scanner` to the callback. -/
def async_get_scanner_deliver (hash_key start_sort_key stop_sort_key : List Nat)
    (options : scan_options) : Int × Option pegasus_scanner_impl :=
  match get_scanner hash_key start_sort_key stop_sort_key options with
  | .error code => (code, none)
  | .ok sc => (PERR_OK, some sc)

/-- From src `pegasus_client_impl::async_get_unordered_scanners`, inner loop,
one step per split index counted down via fuel `r` (the loop index is
`split - r`); `count` mirrors the decremented partition counter, each group
receiving `hash[j] = --count`. -/
def groups_loop (size more split : Nat) : Nat → Nat → List (List Nat)
  | 0, _ => []
  | r + 1, count =>
    let s := size + (if split - (r + 1) < more then 1 else 0)
    (List.range s).map (fun j => count - 1 - j) ::
      groups_loop size more split r (count - s)

/-- From src `pegasus_client_impl::async_get_unordered_scanners`: the
partition-index groups computed from the partition count and the requested
split count (`split = min(count, max_split_count)`, `size = count / split`,
`more = count - size * split`). -/
def split_scan_groups (count max_split_count : Nat) : List (List Nat) :=
  let split := if count < max_split_count then count else max_split_count
  let size := count / split
  let more := count - size * split
  groups_loop size more split split count

/-- From src: the pre-flight part of `async_get_unordered_scanners` (split
count validated before the metadata query; the query goes to the meta server
with partition hash 0). -/
def async_get_unordered_scanners_request (max_split_count : Int) :
    Outcome Unit :=
  if max_split_count ≤ 0 then .fail PERR_INVALID_SPLIT_COUNT
  else .rpc () 0

/-- From src: the scan options the unordered-scan callback passes to each
scanner (defaults except timeout, batch size and snapshot). -/
def unordered_scan_options (options : scan_options) : scan_options :=
  { default_scan_options with
    timeout_ms := options.timeout_ms
    batch_size := options.batch_size
    snapshot := options.snapshot }

/-- From src: what `async_get_unordered_scanners` delivers to its callback
given the metadata-query transport result: scanners are built only when both
the transport and the embedded query status succeed, and the error is
translated without the rocksdb offset (the meta response error is a dsn
code). -/
def async_get_unordered_scanners_deliver (max_split_count : Int)
    (options : scan_options) (tr : Int × query_cfg_response) :
    Int × List pegasus_scanner_impl :=
  match async_get_unordered_scanners_request max_split_count with
  | .fail code => (code, [])
  | .rpc _ _ =>
    let scanners :=
      if tr.1 = ERR_OK ∧ tr.2.err = ERR_OK then
        (split_scan_groups tr.2.partition_count max_split_count.toNat).map
          (fun g =>
            { hash_list := g, options := unordered_scan_options options,
              start := [], stop := [] })
      else []
    (get_client_error (if tr.1 = ERR_OK then tr.2.err else tr.1), scanners)

/-- From src: what `async_set` delivers to the user callback, as a function of
the transport result (validation failures short-circuit with a default
envelope and never consult the transport). -/
def async_set_deliver (hash_key sort_key value : List Nat)
    (ttl_seconds now : Int) (tr : Int × update_response) :
    Int × internal_info :=
  match async_set hash_key sort_key value ttl_seconds now with
  | .fail code => (code, default_info)
  | .rpc _ _ => update_callback tr

def async_multi_set_deliver (hash_key : List Nat)
    (kvs : List (List Nat × List Nat)) (ttl_seconds now : Int)
    (tr : Int × update_response) : Int × internal_info :=
  match async_multi_set hash_key kvs ttl_seconds now with
  | .fail code => (code, default_info)
  | .rpc _ _ => update_callback tr

def async_get_deliver (hash_key sort_key : List Nat)
    (tr : Int × read_response) : Int × List Nat × internal_info :=
  match async_get hash_key sort_key with
  | .fail code => (code, [], default_info)
  | .rpc _ _ => read_callback tr

def async_multi_get_deliver (hash_key : List Nat)
    (sort_keys : List (List Nat)) (max_fetch_count max_fetch_size : Int)
    (tr : Int × multi_get_response) :
    Int × List (List Nat × List Nat) × internal_info :=
  match async_multi_get hash_key sort_keys max_fetch_count max_fetch_size with
  | .fail code => (code, [], default_info)
  | .rpc _ _ => multi_get_callback tr

def async_multi_get_sortkeys_deliver (hash_key : List Nat)
    (max_fetch_count max_fetch_size : Int) (tr : Int × multi_get_response) :
    Int × List (List Nat) × internal_info :=
  match async_multi_get_sortkeys hash_key max_fetch_count max_fetch_size with
  | .fail code => (code, [], default_info)
  | .rpc _ _ => multi_get_sortkeys_callback tr

def async_del_deliver (hash_key sort_key : List Nat)
    (tr : Int × update_response) : Int × internal_info :=
  match async_del hash_key sort_key with
  | .fail code => (code, default_info)
  | .rpc _ _ => update_callback tr

def async_multi_del_deliver (hash_key : List Nat)
    (sort_keys : List (List Nat)) (tr : Int × multi_remove_response) :
    Int × Int × internal_info :=
  match async_multi_del hash_key sort_keys with
  | .fail code => (code, 0, default_info)
  | .rpc _ _ => multi_remove_callback tr

/-- From src `pegasus_client_impl::set`: the synchronous bridge — invoke the
async form with a continuation that captures the delivered code and envelope,
wait, return the captured values. -/
def set (hash_key sort_key value : List Nat) (ttl_seconds now : Int)
    (tr : Int × update_response) : Int × internal_info :=
  match async_set hash_key sort_key value ttl_seconds now with
  | .fail code => (code, default_info)
  | .rpc _ _ => update_callback tr

/-- From src `pegasus_client_impl::multi_set`: synchronous bridge. -/
def multi_set (hash_key : List Nat) (kvs : List (List Nat × List Nat))
    (ttl_seconds now : Int) (tr : Int × update_response) :
    Int × internal_info :=
  match async_multi_set hash_key kvs ttl_seconds now with
  | .fail code => (code, default_info)
  | .rpc _ _ => update_callback tr

/-- From src `pegasus_client_impl::get`: synchronous bridge. -/
def get (hash_key sort_key : List Nat) (tr : Int × read_response) :
    Int × List Nat × internal_info :=
  match async_get hash_key sort_key with
  | .fail code => (code, [], default_info)
  | .rpc _ _ => read_callback tr

/-- From src `pegasus_client_impl::multi_get`: synchronous bridge. -/
def multi_get (hash_key : List Nat) (sort_keys : List (List Nat))
    (max_fetch_count max_fetch_size : Int) (tr : Int × multi_get_response) :
    Int × List (List Nat × List Nat) × internal_info :=
  match async_multi_get hash_key sort_keys max_fetch_count max_fetch_size with
  | .fail code => (code, [], default_info)
  | .rpc _ _ => multi_get_callback tr

/-- From src `pegasus_client_impl::multi_get_sortkeys`: synchronous bridge. -/
def multi_get_sortkeys (hash_key : List Nat)
    (max_fetch_count max_fetch_size : Int) (tr : Int × multi_get_response) :
    Int × List (List Nat) × internal_info :=
  match async_multi_get_sortkeys hash_key max_fetch_count max_fetch_size with
  | .fail code => (code, [], default_info)
  | .rpc _ _ => multi_get_sortkeys_callback tr

/-- From src `pegasus_client_impl::del`: synchronous bridge. -/
def del (hash_key sort_key : List Nat) (tr : Int × update_response) :
    Int × internal_info :=
  match async_del hash_key sort_key with
  | .fail code => (code, default_info)
  | .rpc _ _ => update_callback tr

/-- From src `pegasus_client_impl::multi_del`: synchronous bridge. -/
def multi_del (hash_key : List Nat) (sort_keys : List (List Nat))
    (tr : Int × multi_remove_response) : Int × Int × internal_info :=
  match async_multi_del hash_key sort_keys with
  | .fail code => (code, 0, default_info)
  | .rpc _ _ => multi_remove_callback tr

/-- From src `pegasus_client_impl::get_unordered_scanners`: synchronous
bridge. -/
def get_unordered_scanners (max_split_count : Int) (options : scan_options)
    (tr : Int × query_cfg_response) : Int × List pegasus_scanner_impl :=
  match async_get_unordered_scanners_request max_split_count with
  | .fail code => (code, [])
  | .rpc _ _ =>
    let scanners :=
      if tr.1 = ERR_OK ∧ tr.2.err = ERR_OK then
        (split_scan_groups tr.2.partition_count max_split_count.toNat).map
          (fun g =>
            { hash_list := g, options := unordered_scan_options options,
              start := [], stop := [] })
      else []
    (get_client_error (if tr.1 = ERR_OK then tr.2.err else tr.1), scanners)

/-- From src `pegasus_client_impl::ttl`: synchronous, directly on the
transport's `ttl_sync` call.  Outputs that the C++ code leaves unassigned are
`none`; the envelope on transport failure carries -1 fields with the server
field untouched (modelled as the default 0). -/
def ttl (hash_key sort_key : List Nat) (tr : Int × ttl_response) :
    Int × Option Int × Option internal_info :=
  match ttl_request hash_key sort_key with
  | .fail code => (code, none, none)
  | .rpc _ _ =>
    let ttl_out :=
      if tr.1 = ERR_OK ∧ tr.2.error = 0 then some tr.2.ttl_seconds else none
    let info :=
      if tr.1 = ERR_OK then
        some ⟨tr.2.app_id, tr.2.partition_index, -1, tr.2.server⟩
      else some ⟨-1, -1, -1, default_info.server⟩
    (to_client_error tr.1 tr.2.error, ttl_out, info)

/-- From src `pegasus_client_impl::exist`: defined as the ttl lookup with the
ttl output discarded. -/
def exist (hash_key sort_key : List Nat) (tr : Int × ttl_response) : Int :=
  (ttl hash_key sort_key tr).1

/-- From src `pegasus_client_impl::sortkey_count`: synchronous, directly on
the transport's `sortkey_count_sync` call. -/
def sortkey_count (hash_key : List Nat) (tr : Int × sortkey_count_response) :
    Int × Option Int × Option internal_info :=
  match sortkey_count_request hash_key with
  | .fail code => (code, none, none)
  | .rpc _ _ =>
    let count_out :=
      if tr.1 = ERR_OK ∧ tr.2.error = 0 then some tr.2.count else none
    let info :=
      if tr.1 = ERR_OK then
        some ⟨tr.2.app_id, tr.2.partition_index, -1, tr.2.server⟩
      else some ⟨-1, -1, -1, default_info.server⟩
    (to_client_error tr.1 tr.2.error, count_out, info)

/-- Descending enumeration of `[0, n)`; proof vocabulary for the coverage of
the split-scan groups. -/
def descend (n : Nat) : List Nat := (List.range n).reverse

/-- The number of partition indices still to be handed out when `r` of the
`split` groups remain; proof vocabulary for `groups_loop`. -/
def remaining_total (size more split r : Nat) : Nat :=
  size * r + (more - (split - r))

/-- Helper: the composed storage-to-client mapping is the identity shifted by
-1000 on the statuses 1 .. 12 that `init_error` put in the table. -/
theorem reserved_range_formula (k : Int) (h1 : 1 ≤ k) (h2 : k ≤ 12) :
    get_client_error (get_rocksdb_server_error k) = -1000 - k := by
  interval_cases k <;> decide

/-- C2 counterexample: for the storage statuses 13 and 14, which have no table
entry, the composed mapping does not equal -1000 - k and the two statuses
collide on `PERR_UNKNOWN`, so the claim fails outside 1 .. 12. -/
theorem storage_error_collision_outside_table :
    get_client_error (get_rocksdb_server_error 13) ≠ -1000 - 13 ∧
    (13 : Int) ≠ 14 ∧
    get_client_error (get_rocksdb_server_error 13) =
      get_client_error (get_rocksdb_server_error 14) := by decide

/-- C2 (amended): for storage statuses k in 1 .. 12 — exactly the ones
`init_error` enters into the table — the composition of
`get_rocksdb_server_error` and `get_client_error` equals -1000 - k and is
injective; statuses outside that range degrade to `PERR_UNKNOWN`. -/
theorem storage_error_reserved_range_mapping (k k' : Int)
    (h1 : 1 ≤ k) (h2 : k ≤ 12) (h3 : 1 ≤ k') (h4 : k' ≤ 12) (h5 : k ≠ k') :
    get_client_error (get_rocksdb_server_error k) = -1000 - k ∧
    get_client_error (get_rocksdb_server_error k) ≠
      get_client_error (get_rocksdb_server_error k') := by
  have hk := reserved_range_formula k h1 h2
  have hk' := reserved_range_formula k' h3 h4
  refine ⟨hk, ?_⟩
  rw [hk, hk']
  omega

/-- Witness for the amended C2 theorem at k = 2, k' = 7. -/
theorem storage_error_reserved_range_mapping_witness :
    (1 : Int) ≤ 2 ∧ (2 : Int) ≤ 12 ∧ (1 : Int) ≤ 7 ∧ (7 : Int) ≤ 12 ∧
    (2 : Int) ≠ 7 ∧
    (get_client_error (get_rocksdb_server_error 2) = -1000 - 2 ∧
      get_client_error (get_rocksdb_server_error 2) ≠
        get_client_error (get_rocksdb_server_error 7)) :=
  ⟨by decide, by decide, by decide, by decide, by decide,
   storage_error_reserved_range_mapping 2 7 (by decide) (by decide) (by decide)
     (by decide) (by decide)⟩

/-- C6: the error translation is total (every transport/storage pair yields
exactly one client code), a successful transport with storage status 0 yields
`PERR_OK`, and any code with no table entry yields `PERR_UNKNOWN`. -/
theorem error_translation_total :
    (∀ t s, ∃! c, to_client_error t s = c) ∧
    to_client_error ERR_OK 0 = PERR_OK ∧
    (∀ c, server_error_to_client.lookup c = none →
      get_client_error c = PERR_UNKNOWN) := by
  refine ⟨fun t s => ⟨to_client_error t s, rfl, fun y hy => hy.symm⟩,
    by decide, ?_⟩
  intro c hc
  unfold get_client_error
  rw [hc]

/-- Witness for C6 at the unmapped code 999. -/
theorem error_translation_total_witness :
    server_error_to_client.lookup 999 = none ∧
    get_client_error 999 = PERR_UNKNOWN :=
  ⟨by decide, error_translation_total.2.2 999 (by decide)⟩

/-- Helper: the length prefix of an encoded key recovers the hash-key. -/
theorem extract_hash_key_generate (h s : List Nat) :
    extract_hash_key (pegasus_generate_key h s) = h := by
  show List.take (h.length / 256 * 256 + h.length % 256) (h ++ s) = h
  have he : h.length / 256 * 256 + h.length % 256 = h.length := by
    have := Nat.div_add_mod h.length 256
    omega
  rw [he]
  exact List.take_left h s

/-- C7: the partition hash of an encoded composite key depends only on the
hash-key segment, so any two sort-keys under one hash-key (in particular the
empty sort-key the multi-key operations hash) route identically. -/
theorem partition_hash_ignores_sort_key (h s1 s2 : List Nat)
    (_hl : h.length < 65536) :
    pegasus_key_hash (pegasus_generate_key h s1) =
      pegasus_key_hash (pegasus_generate_key h s2) := by
  unfold pegasus_key_hash
  rw [extract_hash_key_generate, extract_hash_key_generate]

/-- Witness for C7 on hash-key [1, 2] with sort-keys [3] and []. -/
theorem partition_hash_ignores_sort_key_witness :
    ([1, 2] : List Nat).length < 65536 ∧
    pegasus_key_hash (pegasus_generate_key [1, 2] [3]) =
      pegasus_key_hash (pegasus_generate_key [1, 2] []) :=
  ⟨by decide, partition_hash_ignores_sort_key [1, 2] [3] [] (by decide)⟩

/-- C10: exist is definitionally the ttl lookup with the ttl output
discarded, for every argument and transport result. -/
theorem exist_is_ttl_with_output_discarded (hash_key sort_key : List Nat)
    (tr : Int × ttl_response) :
    exist hash_key sort_key tr = (ttl hash_key sort_key tr).1 := rfl

/-- C1 counterexample: `ttl` called with the empty hash-key does not fail
with `PERR_INVALID_HASH_KEY`; it proceeds to issue the RPC (the source's ttl
has no emptiness check, only the length bound). -/
theorem ttl_accepts_empty_hash_key :
    (ttl_request [] []).isRpc = true ∧
    ttl_request [] [] ≠ Outcome.fail PERR_INVALID_HASH_KEY := by decide

/-- C1 (amended): multi_set, multi_get, multi_get_sortkeys, multi_del and
sortkey_count reject an empty hash-key with `PERR_INVALID_HASH_KEY` before
any RPC, but the ttl-class lookups (ttl, and exist built on it) perform no
emptiness check and issue the RPC even for an empty hash-key. -/
theorem empty_hash_key_grouping_checks (sort_key : List Nat)
    (kvs : List (List Nat × List Nat)) (sort_keys : List (List Nat))
    (ttl_seconds now max_fetch_count max_fetch_size : Int) :
    async_multi_set [] kvs ttl_seconds now =
      Outcome.fail PERR_INVALID_HASH_KEY ∧
    async_multi_get [] sort_keys max_fetch_count max_fetch_size =
      Outcome.fail PERR_INVALID_HASH_KEY ∧
    async_multi_get_sortkeys [] max_fetch_count max_fetch_size =
      Outcome.fail PERR_INVALID_HASH_KEY ∧
    async_multi_del [] sort_keys = Outcome.fail PERR_INVALID_HASH_KEY ∧
    sortkey_count_request [] = Outcome.fail PERR_INVALID_HASH_KEY ∧
    (ttl_request [] sort_key).isRpc = true := by
  refine ⟨rfl, rfl, rfl, rfl, rfl, ?_⟩
  rfl

/-- C9: a non-positive split count fails with `PERR_INVALID_SPLIT_COUNT` and
an empty scanner vector before the metadata query is issued, in both the
asynchronous and the synchronous form. -/
theorem non_positive_split_count_rejected (max_split_count : Int)
    (options : scan_options) (tr : Int × query_cfg_response)
    (h : max_split_count ≤ 0) :
    async_get_unordered_scanners_request max_split_count =
      Outcome.fail PERR_INVALID_SPLIT_COUNT ∧
    async_get_unordered_scanners_deliver max_split_count options tr =
      (PERR_INVALID_SPLIT_COUNT, []) ∧
    get_unordered_scanners max_split_count options tr =
      (PERR_INVALID_SPLIT_COUNT, []) := by
  have hreq : async_get_unordered_scanners_request max_split_count =
      Outcome.fail PERR_INVALID_SPLIT_COUNT := by
    unfold async_get_unordered_scanners_request
    rw [if_pos h]
  refine ⟨hreq, ?_, ?_⟩
  · unfold async_get_unordered_scanners_deliver
    rw [hreq]
  · unfold get_unordered_scanners
    rw [hreq]

/-- Witness for C9 at split count 0. -/
theorem non_positive_split_count_rejected_witness :
    (0 : Int) ≤ 0 ∧
    async_get_unordered_scanners_request 0 =
      Outcome.fail PERR_INVALID_SPLIT_COUNT :=
  ⟨by decide,
   (non_positive_split_count_rejected 0 default_scan_options (0, ⟨0, 0⟩)
     (by decide)).1⟩

/-- C5: every operation that takes a hash-key rejects one of length at least
65536 with `PERR_INVALID_HASH_KEY`, delivered synchronously with no RPC
issued (the source checks `size() >= UINT16_MAX`, which subsumes 65536). -/
theorem oversized_hash_key_rejected (hash_key sort_key value : List Nat)
    (kvs : List (List Nat × List Nat)) (sort_keys : List (List Nat))
    (ttl_seconds now max_fetch_count max_fetch_size : Int)
    (options : scan_options) (tr : Int × ttl_response)
    (hlen : 65536 ≤ hash_key.length) :
    async_set hash_key sort_key value ttl_seconds now =
      Outcome.fail PERR_INVALID_HASH_KEY ∧
    async_get hash_key sort_key = Outcome.fail PERR_INVALID_HASH_KEY ∧
    async_del hash_key sort_key = Outcome.fail PERR_INVALID_HASH_KEY ∧
    async_multi_set hash_key kvs ttl_seconds now =
      Outcome.fail PERR_INVALID_HASH_KEY ∧
    async_multi_get hash_key sort_keys max_fetch_count max_fetch_size =
      Outcome.fail PERR_INVALID_HASH_KEY ∧
    async_multi_get_sortkeys hash_key max_fetch_count max_fetch_size =
      Outcome.fail PERR_INVALID_HASH_KEY ∧
    async_multi_del hash_key sort_keys = Outcome.fail PERR_INVALID_HASH_KEY ∧
    ttl_request hash_key sort_key = Outcome.fail PERR_INVALID_HASH_KEY ∧
    exist hash_key sort_key tr = PERR_INVALID_HASH_KEY ∧
    sortkey_count_request hash_key = Outcome.fail PERR_INVALID_HASH_KEY ∧
    get_scanner hash_key sort_key sort_key options =
      Except.error PERR_INVALID_HASH_KEY := by
  have h1 : UINT16_MAX ≤ hash_key.length := by unfold UINT16_MAX; omega
  have h0 : ¬ hash_key.length = 0 := by omega
  refine ⟨?_, ?_, ?_, ?_, ?_, ?_, ?_, ?_, ?_, ?_, ?_⟩
  · simp only [async_set, if_pos h1]
  · simp only [async_get, if_pos h1]
  · simp only [async_del, if_pos h1]
  · simp only [async_multi_set, if_neg h0, if_pos h1]
  · simp only [async_multi_get, if_neg h0, if_pos h1]
  · simp only [async_multi_get_sortkeys, if_neg h0, if_pos h1]
  · simp only [async_multi_del, if_neg h0, if_pos h1]
  · simp only [ttl_request, if_pos h1]
  · simp only [exist, ttl, ttl_request, if_pos h1]
  · simp only [sortkey_count_request, if_neg h0, if_pos h1]
  · simp only [get_scanner, if_pos h1]

/-- Witness for C5 at a hash-key of exactly 65536 zero bytes. -/
theorem oversized_hash_key_rejected_witness :
    65536 ≤ (List.replicate 65536 0).length ∧
    async_set (List.replicate 65536 0) [] [] 0 0 =
      Outcome.fail PERR_INVALID_HASH_KEY :=
  ⟨by rw [List.length_replicate],
   (oversized_hash_key_rejected (List.replicate 65536 0) [] [] [] [] 0 0 0 0
     default_scan_options (0, ⟨0, 0, 0, 0, 0⟩)
     (by rw [List.length_replicate])).1⟩

/-- C8: for every operation with both forms in the source, the synchronous
form returns exactly the client error code and outputs the asynchronous form
delivers to its continuation on the same arguments and transport result (the
blocking notification primitive is modelled extensionally by this equality);
for the scanner pair the async form delivers exactly the synchronous
`get_scanner` result. -/
theorem sync_forms_return_async_delivery :
    (∀ h s v t now tr, set h s v t now tr = async_set_deliver h s v t now tr) ∧
    (∀ h kvs t now tr,
      multi_set h kvs t now tr = async_multi_set_deliver h kvs t now tr) ∧
    (∀ h s tr, get h s tr = async_get_deliver h s tr) ∧
    (∀ h sks c z tr,
      multi_get h sks c z tr = async_multi_get_deliver h sks c z tr) ∧
    (∀ h c z tr,
      multi_get_sortkeys h c z tr = async_multi_get_sortkeys_deliver h c z tr) ∧
    (∀ h s tr, del h s tr = async_del_deliver h s tr) ∧
    (∀ h sks tr, multi_del h sks tr = async_multi_del_deliver h sks tr) ∧
    (∀ c opts tr, get_unordered_scanners c opts tr =
      async_get_unordered_scanners_deliver c opts tr) ∧
    (∀ h a b opts, (async_get_scanner_deliver h a b opts).1 =
      (match get_scanner h a b opts with
       | .error code => code
       | .ok _ => PERR_OK)) := by
  refine ⟨fun _ _ _ _ _ _ => rfl, fun _ _ _ _ _ => rfl, fun _ _ _ => rfl,
    fun _ _ _ _ _ => rfl, fun _ _ _ _ => rfl, fun _ _ _ => rfl,
    fun _ _ _ => rfl, fun _ _ _ => rfl, fun h a b opts => ?_⟩
  unfold async_get_scanner_deliver
  cases get_scanner h a b opts <;> rfl

/-- Helper: the C condition `cmp < 0 || (cmp == 0 && shorter)` computed by
`memcmpList` over the common prefix is exactly byte-wise lexicographic
strict order. -/
theorem memcmp_lt_iff : ∀ a b : List Nat,
    (memcmpList a b < 0 ∨ (memcmpList a b = 0 ∧ a.length < b.length)) ↔
      bytesLt a b = true := by
  intro a
  induction a with
  | nil =>
    intro b
    cases b with
    | nil => simp [memcmpList, bytesLt]
    | cons y ys => simp [memcmpList, bytesLt]
  | cons x xs ih =>
    intro b
    cases b with
    | nil => simp [memcmpList, bytesLt]
    | cons y ys =>
      simp only [memcmpList, bytesLt, List.length_cons]
      rcases Nat.lt_trichotomy x y with h | h | h
      · rw [if_pos h, if_pos h]
        simp
      · subst h
        rw [if_neg (lt_irrefl x), if_neg (lt_irrefl x), if_neg (lt_irrefl x),
          if_pos rfl]
        rw [Nat.add_lt_add_iff_right]
        exact ih ys
      · rw [if_neg (by omega : ¬ x < y), if_pos h,
          if_neg (by omega : ¬ x < y), if_neg (by omega : ¬ x = y)]
        simp

/-- Helper: `memcmpList` returning 0 together with equal lengths is exactly
equality of the byte strings. -/
theorem memcmp_eq_iff : ∀ a b : List Nat,
    (memcmpList a b = 0 ∧ a.length = b.length) ↔ a = b := by
  intro a
  induction a with
  | nil =>
    intro b
    cases b with
    | nil => simp [memcmpList]
    | cons y ys => simp [memcmpList]
  | cons x xs ih =>
    intro b
    cases b with
    | nil => simp [memcmpList]
    | cons y ys =>
      simp only [memcmpList, List.length_cons, List.cons.injEq]
      rcases Nat.lt_trichotomy x y with h | h | h
      · rw [if_pos h]
        constructor
        · rintro ⟨h0, _⟩
          exact absurd h0 (by decide)
        · rintro ⟨hxy, _⟩
          omega
      · subst h
        rw [if_neg (lt_irrefl x), if_neg (lt_irrefl x)]
        constructor
        · rintro ⟨hm, hlen⟩
          exact ⟨rfl, (ih ys).mp ⟨hm, by omega⟩⟩
        · rintro ⟨_, hxs⟩
          obtain ⟨hm, hlen⟩ := (ih ys).mpr hxs
          exact ⟨hm, by omega⟩
      · rw [if_neg (by omega : ¬ x < y), if_pos h]
        constructor
        · rintro ⟨h0, _⟩
          exact absurd h0 (by decide)
        · rintro ⟨hxy, _⟩
          omega

/-- Helper: the source's eligibility condition in `get_scanner` is
equivalent to start being byte-wise below stop, or equal to it with both
bounds inclusive. -/
theorem scan_range_eligible_iff (a b : List Nat) (o : scan_options) :
    scan_range_eligible a b o ↔
      (bytesLt a b = true ∨
        (a = b ∧ o.start_inclusive = true ∧ o.stop_inclusive = true)) := by
  unfold scan_range_eligible
  have hA := memcmp_lt_iff a b
  have hB := memcmp_eq_iff a b
  constructor
  · rintro (h | ⟨h1, h2⟩ | ⟨h1, h2, h3, h4⟩)
    · exact Or.inl (hA.mp (Or.inl h))
    · exact Or.inl (hA.mp (Or.inr ⟨h1, h2⟩))
    · exact Or.inr ⟨hB.mp ⟨h1, h2⟩, h3, h4⟩
  · rintro (h | ⟨h1, h2, h3⟩)
    · rcases hA.mpr h with h' | ⟨h1, h2⟩
      · exact Or.inl h'
      · exact Or.inr (Or.inl ⟨h1, h2⟩)
    · obtain ⟨hm, hlen⟩ := hB.mpr h1
      exact Or.inr (Or.inr ⟨hm, hlen, h2, h3⟩)

/-- C4: with a valid hash-key, `get_scanner` always returns Ok, and the
constructed scanner's partition-hash work list is non-empty exactly when the
encoded start key is byte-wise below the encoded stop key, or equal to it
with both (possibly defaulted) bounds inclusive; the degenerate empty range
yields an empty work list, never an error. -/
theorem scanner_work_list_nonempty_iff
    (hash_key start_sort_key stop_sort_key : List Nat)
    (options : scan_options) (h1 : hash_key ≠ [])
    (h2 : hash_key.length < UINT16_MAX) :
    ∃ sc, get_scanner hash_key start_sort_key stop_sort_key options =
        Except.ok sc ∧
      (sc.hash_list ≠ [] ↔
        (bytesLt sc.start sc.stop = true ∨
          (sc.start = sc.stop ∧ sc.options.start_inclusive = true ∧
            sc.options.stop_inclusive = true))) := by
  have hn1 : ¬ UINT16_MAX ≤ hash_key.length := by omega
  simp only [get_scanner, if_neg hn1, if_neg h1]
  refine ⟨_, rfl, ?_⟩
  by_cases he : scan_range_eligible
      (pegasus_generate_key hash_key start_sort_key)
      (if stop_sort_key = [] then
        (pegasus_generate_next_blob hash_key,
         { options with stop_inclusive := false })
      else (pegasus_generate_key hash_key stop_sort_key, options)).1
      (if stop_sort_key = [] then
        (pegasus_generate_next_blob hash_key,
         { options with stop_inclusive := false })
      else (pegasus_generate_key hash_key stop_sort_key, options)).2
  · rw [if_pos he]
    exact iff_of_true (by simp) ((scan_range_eligible_iff _ _ _).mp he)
  · rw [if_neg he]
    exact iff_of_false (by simp)
      (fun hc => he ((scan_range_eligible_iff _ _ _).mpr hc))

/-- Witness for C4: scenario D, start equal to stop with both bounds
exclusive (work list empty, scanner still Ok). -/
theorem scanner_work_list_nonempty_iff_witness :
    ([1] : List Nat) ≠ [] ∧ ([1] : List Nat).length < UINT16_MAX ∧
    (∃ sc, get_scanner [1] [2] [2] ⟨5000, 100, false, false, false⟩ =
        Except.ok sc ∧
      (sc.hash_list ≠ [] ↔
        (bytesLt sc.start sc.stop = true ∨
          (sc.start = sc.stop ∧ sc.options.start_inclusive = true ∧
            sc.options.stop_inclusive = true)))) :=
  ⟨by decide, by decide,
   scanner_work_list_nonempty_iff [1] [2] [2] ⟨5000, 100, false, false, false⟩
     (by decide) (by decide)⟩

/-- Helper: the split loop produces one group per remaining step. -/
theorem groups_loop_length (size more split : Nat) :
    ∀ r count, (groups_loop size more split r count).length = r := by
  intro r
  induction r with
  | zero => intro count; rfl
  | succ n ih =>
    intro count
    simp [groups_loop, ih]

/-- Helper: one step of the handed-out-indices invariant. -/
theorem remaining_total_succ (size more split r : Nat) (hr : r < split) :
    remaining_total size more split (r + 1) =
      (size + if split - (r + 1) < more then 1 else 0) +
        remaining_total size more split r := by
  unfold remaining_total
  rw [Nat.mul_succ]
  split_ifs with h <;> omega

/-- Helper: reversing `range s` enumerates `s - 1 - i`. -/
theorem reverse_range (s : Nat) :
    (List.range s).reverse = (List.range s).map (fun i => s - 1 - i) := by
  conv_lhs => rw [List.range_eq_range']
  rw [List.reverse_range']
  simp

/-- Helper: peeling the top `s` indices off a descending enumeration. -/
theorem descend_split (c s : Nat) :
    descend (c + s) =
      (List.range s).map (fun j => c + s - 1 - j) ++ descend c := by
  unfold descend
  rw [List.range_add, List.reverse_append]
  congr 1
  rw [← List.map_reverse, reverse_range, List.map_map]
  apply List.map_congr_left
  intro a ha
  simp only [List.mem_range] at ha
  simp only [Function.comp_apply]
  omega

/-- Helper: run from `r` remaining groups with exactly the remaining total of
indices still to hand out, and the flattened groups enumerate exactly those
indices, descending. -/
theorem groups_loop_flatten (size more split : Nat) (hm : more ≤ split) :
    ∀ r, r ≤ split →
      (groups_loop size more split r
          (remaining_total size more split r)).flatten =
        descend (remaining_total size more split r) := by
  intro r
  induction r with
  | zero =>
    intro _
    have h0 : remaining_total size more split 0 = 0 := by
      unfold remaining_total
      omega
    rw [h0]
    rfl
  | succ n ih =>
    intro hn
    have hlt : n < split := hn
    have hstep := remaining_total_succ size more split n hlt
    simp only [groups_loop, List.flatten_cons]
    have hsub : remaining_total size more split (n + 1) -
        (size + if split - (n + 1) < more then 1 else 0) =
        remaining_total size more split n := by
      omega
    rw [hsub, ih (by omega)]
    rw [hstep, Nat.add_comm (size + if split - (n + 1) < more then 1 else 0)
      (remaining_total size more split n)]
    rw [descend_split]

/-- Helper: the full split-scan group list enumerates `P - 1` down to 0. -/
theorem split_scan_groups_flatten (P S : Nat) (hP : 1 ≤ P) (hS : 1 ≤ S) :
    (split_scan_groups P S).flatten = descend P := by
  obtain ⟨n, hnn⟩ : ∃ n, (if P < S then P else S) = n := ⟨_, rfl⟩
  have hmin : n = min P S := by
    rw [← hnn]
    split <;> omega
  simp only [split_scan_groups, hnn]
  have hpos : 0 < n := by omega
  have hnP : n ≤ P := by omega
  have h1 := Nat.div_add_mod P n
  have h2 : P / n * n = n * (P / n) := Nat.mul_comm _ _
  have hmlt : P % n < n := Nat.mod_lt _ hpos
  have hmore : P - P / n * n ≤ n := by omega
  have hrem : remaining_total (P / n) (P - P / n * n) n n = P := by
    unfold remaining_total
    omega
  calc (groups_loop (P / n) (P - P / n * n) n n P).flatten
      = (groups_loop (P / n) (P - P / n * n) n n
          (remaining_total (P / n) (P - P / n * n) n n)).flatten := by
        rw [hrem]
    _ = descend (remaining_total (P / n) (P - P / n * n) n n) :=
        groups_loop_flatten _ _ _ hmore n le_rfl
    _ = descend P := by rw [hrem]

/-- Helper: no group produced by the split loop is empty when the base group
size is at least 1. -/
theorem groups_loop_ne_nil (size more split : Nat) (hsize : 1 ≤ size) :
    ∀ r count g, g ∈ groups_loop size more split r count → g ≠ [] := by
  intro r
  induction r with
  | zero =>
    intro count g hg
    simp [groups_loop] at hg
  | succ n ih =>
    intro count g hg
    simp only [groups_loop, List.mem_cons] at hg
    rcases hg with h | h
    · subst h
      intro hcontra
      have hlen := congrArg List.length hcontra
      simp only [List.length_map, List.length_range, List.length_nil] at hlen
      split_ifs at hlen <;> omega
    · exact ih _ g h

/-- Helper: the group at index `idx` of the split loop has the base size plus
one exactly when its loop index is below `more`. -/
theorem groups_loop_len_at (size more split : Nat) :
    ∀ r count idx, idx < r → r ≤ split →
      ((groups_loop size more split r count)[idx]?.map List.length) =
        some (size + if split - r + idx < more then 1 else 0) := by
  intro r
  induction r with
  | zero =>
    intro count idx h _
    exact absurd h (Nat.not_lt_zero idx)
  | succ n ih =>
    intro count idx hidx hr
    simp only [groups_loop]
    cases idx with
    | zero =>
      simp [List.length_map, List.length_range]
    | succ t =>
      rw [List.getElem?_cons_succ]
      have heq : split - (n + 1) + (t + 1) = split - n + t := by omega
      rw [heq]
      exact ih _ t (by omega) (by omega)

/-- C3: for P partitions (P at least 1) and requested split count S (at least
1), the split-scan algorithm produces exactly min S P scanners whose
partition-index groups are non-empty, pairwise disjoint, cover [0, P)
exactly, and whose sizes are the base size P / min S P plus one exactly for
the first P mod min S P groups, hence differ by at most one. -/
theorem split_scan_partition_balanced (P S : Nat) (hP : 1 ≤ P) (hS : 1 ≤ S) :
    (split_scan_groups P S).length = min S P ∧
    (∀ g ∈ split_scan_groups P S, g ≠ []) ∧
    List.Pairwise List.Disjoint (split_scan_groups P S) ∧
    (∀ x, (∃ g ∈ split_scan_groups P S, x ∈ g) ↔ x < P) ∧
    (∀ i, i < min S P →
      ((split_scan_groups P S)[i]?.map List.length) =
        some (P / min S P + if i < P % min S P then 1 else 0)) ∧
    (∀ g1 ∈ split_scan_groups P S, ∀ g2 ∈ split_scan_groups P S,
      g1.length ≤ g2.length + 1) := by
  have hmin' : (if P < S then P else S) = min S P := by
    split <;> omega
  have hpos : 0 < min S P := by omega
  have hnP : min S P ≤ P := by omega
  have h1 := Nat.div_add_mod P (min S P)
  have h2 : P / min S P * min S P = min S P * (P / min S P) :=
    Nat.mul_comm _ _
  have hmod : P - P / min S P * min S P = P % min S P := by omega
  have hlen : (split_scan_groups P S).length = min S P := by
    simp only [split_scan_groups, hmin']
    rw [groups_loop_length]
  have hkey : ∀ i, i < min S P →
      ((split_scan_groups P S)[i]?.map List.length) =
        some (P / min S P + if i < P % min S P then 1 else 0) := by
    intro i hi
    simp only [split_scan_groups, hmin']
    rw [groups_loop_len_at _ _ _ (min S P) P i hi le_rfl]
    have e1 : min S P - min S P + i = i := by omega
    rw [e1, hmod]
  have hne : ∀ g ∈ split_scan_groups P S, g ≠ [] := by
    have hsz : 1 ≤ P / min S P := (Nat.one_le_div_iff hpos).mpr hnP
    intro g hg
    have hg' : g ∈ groups_loop (P / min S P) (P - P / min S P * min S P)
        (min S P) (min S P) P := by
      simpa only [split_scan_groups, hmin'] using hg
    exact groups_loop_ne_nil _ _ _ hsz _ _ g hg'
  have hflat := split_scan_groups_flatten P S hP hS
  have hnd : (split_scan_groups P S).flatten.Nodup := by
    rw [hflat]
    unfold descend
    exact List.nodup_reverse.mpr (List.nodup_range P)
  refine ⟨hlen, hne, (List.nodup_flatten.mp hnd).2, ?_, hkey, ?_⟩
  · intro x
    rw [← List.mem_flatten, hflat]
    unfold descend
    rw [List.mem_reverse, List.mem_range]
  · intro g1 hg1 g2 hg2
    obtain ⟨i, hie⟩ := List.mem_iff_getElem?.mp hg1
    obtain ⟨j, hje⟩ := List.mem_iff_getElem?.mp hg2
    have hi : i < (split_scan_groups P S).length := by
      rcases Nat.lt_or_ge i (split_scan_groups P S).length with h | h
      · exact h
      · rw [List.getElem?_eq_none h] at hie
        cases hie
    have hj : j < (split_scan_groups P S).length := by
      rcases Nat.lt_or_ge j (split_scan_groups P S).length with h | h
      · exact h
      · rw [List.getElem?_eq_none h] at hje
        cases hje
    rw [hlen] at hi hj
    have k1 := hkey i hi
    have k2 := hkey j hj
    rw [hie] at k1
    rw [hje] at k2
    simp at k1 k2
    split_ifs at k1 k2 <;> omega

/-- Witness for C3 at P = 10, S = 4 (spec scenario C: group sizes 3, 3, 2,
2 covering 0 .. 9). -/
theorem split_scan_partition_balanced_witness :
    1 ≤ 10 ∧ 1 ≤ 4 ∧ (split_scan_groups 10 4).length = min 4 10 ∧
    (split_scan_groups 10 4).map List.length = [3, 3, 2, 2] ∧
    (split_scan_groups 10 4).flatten = [9, 8, 7, 6, 5, 4, 3, 2, 1, 0] :=
  ⟨by decide, by decide, (split_scan_partition_balanced 10 4 (by decide)
    (by decide)).1, by decide, by decide⟩

end Pegasus
